import Mathlib

/-!
Shallow embedding of the time-windowed aggregation and report-formatting
logic of the sunrun-text-automation scripts.

Conventions of the embedding:
* An instant is modelled as an integer count of milliseconds since the Unix
  epoch (UTC).  The scripts store ISO-8601 `...Z` strings of a fixed shape in
  SQLite and compare them with `>=`/`<=`; for strings of that shape the
  lexicographic order used by SQLite coincides with the chronological order of
  the instants, so integer comparison is a faithful model of the queries.
* A JavaScript number is modelled as a rational (`ℚ`); a possibly-`null`
  number as `Option ℚ`.
* `new Date(t).toISOString().split('T')[0]` (the UTC calendar date of an
  instant) is modelled as the floor division of the millisecond count by
  86400000, i.e. the day index since 1970-01-01; `daysFromCivil` /
  `civilFromDays` translate between day indices and `YYYY-MM-DD` dates with
  the standard proleptic-Gregorian algorithm, modelling the ECMAScript `Date`
  library functions.
* File-system and process failures of the collaborators are modelled with
  `Option` / `Except`: a read that may fail is a value of `Except Unit _`.
-/

set_option maxRecDepth 20000

/-- A row of the `solar` table (resp. a reading of the time series): a UTC
instant in milliseconds and the `solar` value in kWh, which may be `null`
(missing).  Other columns (`pv_solar`, ...) are never used by the
aggregation and are omitted. -/
structure Reading where
  timestamp : Int
  solar : Option ℚ
deriving DecidableEq

/-- The fixed failure text used by every revision of the script. -/
def failureMsg : String := "Failed to get solar production data"

/-- Models the JavaScript expression `row.solar || 0`: `null` (and `0`
itself) is replaced by `0`, any other number is kept unchanged. -/
def valueOrZero : Option ℚ → ℚ
  | none => 0
  | some v => if v = 0 then 0 else v

/-- Models `x || 0` applied to a plain number `x`. -/
def jsOr0 (q : ℚ) : ℚ := if q = 0 then 0 else q

/-- Models the JavaScript truthiness test of a number-or-`null` value, as in
`if (productionData.mostRecentDayTotal)`: `null` and `0` are falsy. -/
def jsTruthy : Option ℚ → Bool
  | none => false
  | some q => decide (q ≠ 0)

/-- Models the SQL query
`SELECT * FROM solar WHERE timestamp >= ? AND timestamp <= ?` with the bounds
`now - 24*60*60*1000` and `now` (the `recentRecords` query of both SQLite
revisions).  Both endpoints are inclusive. -/
def recentRecords (rs : List Reading) (now : Int) : List Reading :=
  rs.filter fun r =>
    decide (now - 24 * 60 * 60 * 1000 ≤ r.timestamp) && decide (r.timestamp ≤ now)

/-- Models the accumulation loop
`recentRecords.forEach((row) => { totalSolar += row.solar || 0; })`
of the 24-hour revision, starting from `let totalSolar = 0`. -/
def totalSolar (rs : List Reading) (now : Int) : ℚ :=
  (recentRecords rs now).foldl (fun acc r => acc + valueOrZero r.solar) 0

/-- The object returned by `getProductionData` of the 24-hour revision:
`{ yesterdayTotalKwh: totalSolar, recordsCount: recentRecords.length }`. -/
structure ProductionData24 where
  yesterdayTotalKwh : ℚ
  recordsCount : ℕ
deriving DecidableEq

/-- Models `getProductionData` of the 24-hour revision (given the table
contents and the current instant). -/
def getProductionData24 (rs : List Reading) (now : Int) : ProductionData24 :=
  { yesterdayTotalKwh := totalSolar rs now
    recordsCount := (recentRecords rs now).length }

/-- Two-digit zero padding, as in the `MM`/`DD`/fraction positions of the
strings the scripts build. -/
def pad2 (n : ℕ) : String := if n < 10 then "0" ++ toString n else toString n

/-- Models `x.toFixed(2)` of ECMAScript: the number is rendered with exactly
two fraction digits, rounding the magnitude to the nearest hundredth with
ties away from zero (`n` is chosen so that `n / 10^2 - x` is closest to zero,
the larger `n` on a tie). -/
def toFixed2 (q : ℚ) : String :=
  let s := if q < 0 then "-" else ""
  let n : ℕ := (Rat.floor (|q| * 100 + 1 / 2)).toNat
  s ++ toString (n / 100) ++ "." ++ pad2 (n % 100)

/-- Models the message choice of `main` in the 24-hour revision:
`productionData && productionData.yesterdayTotalKwh != null &&
productionData.recordsCount > 0` selects the success template, otherwise the
failure text.  (`yesterdayTotalKwh != null` is always true there, since the
field is the numeric `totalSolar`.) -/
def formatMessage24 : Option ProductionData24 → String
  | none => failureMsg
  | some pd =>
    if 0 < pd.recordsCount then
      "Solar production (last 24h): " ++ toFixed2 pd.yesterdayTotalKwh ++ " kWh (" ++
        toString pd.recordsCount ++ " readings)"
    else failureMsg

/-- Models the `try`/`catch` of `main` in the 24-hour revision: an exception
anywhere in the data retrieval makes the script send the failure text. -/
def mainMessage24 : Except Unit (Option ProductionData24) → String
  | Except.error _ => failureMsg
  | Except.ok pd => formatMessage24 pd

/-- Day index since 1970-01-01 of a proleptic-Gregorian date (Howard
Hinnant's `days_from_civil`); models the calendar arithmetic of the
ECMAScript `Date` library. -/
def daysFromCivil (y m d : Int) : Int :=
  let y2 : Int := if m ≤ 2 then y - 1 else y
  let era : Int := y2.fdiv 400
  let yoe : Int := y2 - era * 400
  let mp : Int := if m > 2 then m - 3 else m + 9
  let doy : Int := (153 * mp + 2).fdiv 5 + d - 1
  let doe : Int := yoe * 365 + yoe.fdiv 4 - yoe.fdiv 100 + doy
  era * 146097 + doe - 719468

/-- Inverse of `daysFromCivil` (Howard Hinnant's `civil_from_days`): the
`(year, month, day)` of a day index. -/
def civilFromDays (z : Int) : Int × Int × Int :=
  let z2 : Int := z + 719468
  let era : Int := z2.fdiv 146097
  let doe : Int := z2 - era * 146097
  let yoe : Int := (doe - doe.fdiv 1460 + doe.fdiv 36524 - doe.fdiv 146096).fdiv 365
  let y : Int := yoe + era * 400
  let doy : Int := doe - (365 * yoe + yoe.fdiv 4 - yoe.fdiv 100)
  let mp : Int := (5 * doy + 2).fdiv 153
  let d : Int := doy - (153 * mp + 2).fdiv 5 + 1
  let m : Int := if mp < 10 then mp + 3 else mp - 9
  (if m ≤ 2 then y + 1 else y, m, d)

/-- The instant (milliseconds since the epoch) of a UTC civil date and time;
models `Date.UTC`. -/
def utcMillis (y m d hh mi ss : Int) : Int :=
  daysFromCivil y m d * 86400000 + hh * 3600000 + mi * 60000 + ss * 1000

/-- Four-digit zero padding for the year position of an ISO date string. -/
def pad4 (n : ℕ) : String :=
  if n < 10 then "000" ++ toString n
  else if n < 100 then "00" ++ toString n
  else if n < 1000 then "0" ++ toString n
  else toString n

/-- The `YYYY-MM-DD` string of a day index, as produced by
`toISOString().split('T')[0]`. -/
def dayToString (z : Int) : String :=
  let c := civilFromDays z
  pad4 c.1.toNat ++ "-" ++ pad2 c.2.1.toNat ++ "-" ++ pad2 c.2.2.toNat

/-- Models `getMountainTimeDate` of `solar-monitor.js`: subtract 7 hours
(the fixed Mountain Time offset used by the script) from the UTC instant and
take the UTC calendar date of the result, here as a day index. -/
def mtDay (ts : Int) : Int :=
  (ts - 7 * (60 * 60 * 1000)).fdiv (24 * 60 * 60 * 1000)

/-- The per-date total accumulated by the `dailyMap` grouping loop of
`solar-monitor.js` (`dailyMap[mtDateStr].total += row.solar || 0`): the sum
of `row.solar || 0` over the readings whose Mountain Time date is `d`. -/
def dayTotal (rs : List Reading) (d : Int) : ℚ :=
  ((rs.filter fun r => decide (mtDay r.timestamp = d)).map fun r =>
    valueOrZero r.solar).sum

/-- The per-date reading count accumulated by the `dailyMap` grouping loop of
`solar-monitor.js` (`dailyMap[mtDateStr].readings += 1`). -/
def dayCount (rs : List Reading) (d : Int) : ℕ :=
  (rs.filter fun r => decide (mtDay r.timestamp = d)).length

/-- One step of insertion sort into descending order. -/
def insertDesc (x : Int) : List Int → List Int
  | [] => [x]
  | y :: ys => if y ≤ x then x :: y :: ys else y :: insertDesc x ys

/-- Sorting into descending order; models
`Object.keys(dailyMap).sort().reverse()` (for fixed-shape `YYYY-MM-DD` keys
the lexicographic sort used by JavaScript coincides with the order of the
day indices). -/
def sortDesc (l : List Int) : List Int := l.foldr insertDesc []

/-- The sorted-descending list of distinct Mountain Time dates of the
readings: `Object.keys(dailyMap).sort().reverse()` of `solar-monitor.js`. -/
def sortedDates (rs : List Reading) : List Int :=
  sortDesc ((rs.map fun r => mtDay r.timestamp).dedup)

/-- Models `sortedDates.find((d) => (dailyMap[d].total || 0) > 0)` of
`solar-monitor.js`: the first date, scanning all grouped dates in descending
order, whose daily total is strictly positive. -/
def mostRecentDate (rs : List Reading) : Option Int :=
  (sortedDates rs).find? fun d => decide (0 < jsOr0 (dayTotal rs d))

/-- The object returned by `getProductionData` of `solar-monitor.js`. -/
structure ProductionDataMT where
  recordsCount : ℕ
  mostRecentDayTotal : Option ℚ
  mostRecentDayDate : Option Int
deriving DecidableEq

/-- Models `getProductionData` of `solar-monitor.js` (given the table
contents and the current instant): the 24-hour-window record count together
with the most recent positive-total day and its total. -/
def getProductionDataMT (rs : List Reading) (now : Int) : ProductionDataMT :=
  { recordsCount := (recentRecords rs now).length
    mostRecentDayTotal := (mostRecentDate rs).map fun d => dayTotal rs d
    mostRecentDayDate := mostRecentDate rs }

/-- Models the `fs.existsSync(DB_FILE)` guard of `solar-monitor.js`: a
missing store makes `getProductionData` return `null` (here `none`) instead
of querying. -/
def getProductionDataMTStore (store : Option (List Reading)) (now : Int) :
    Option ProductionDataMT :=
  match store with
  | none => none
  | some rs => some (getProductionDataMT rs now)

/-- String interpolation of a date-or-`undefined` value, as in the success
template of `solar-monitor.js`. -/
def optDayStr : Option Int → String
  | none => "undefined"
  | some d => dayToString d

/-- Models the message choice of `main` in `solar-monitor.js`:
`productionData && productionData.mostRecentDayTotal` (truthiness of the
total) selects the success template, otherwise the failure text. -/
def formatMessageMT : Option ProductionDataMT → String
  | none => failureMsg
  | some pd =>
    if jsTruthy pd.mostRecentDayTotal then
      "Solar production (" ++ optDayStr pd.mostRecentDayDate ++ "): " ++
        toFixed2 (pd.mostRecentDayTotal.getD 0) ++ " kWh"
    else failureMsg

/-- The parsed contents of `production.json` in the flat-file revision. -/
structure ProdJson where
  yesterdayTotalKwh : Option ℚ
deriving DecidableEq

/-- Models `readJsonIfExists` of the flat-file revision: the read-and-parse
of the metric file either yields a value or fails (missing file, corrupt
JSON), and any failure is caught and turned into `null` (here `none`). -/
def readJsonIfExists : Except Unit ProdJson → Option ProdJson
  | Except.error _ => none
  | Except.ok v => some v

/-- The number of fraction digits of the exact decimal expansion of `q`
(at most 20), used to model ECMAScript number printing. -/
def fracDigits (q : ℚ) : ℕ :=
  ((List.range 21).find? fun k => decide (q.den ∣ 10 ^ k)).getD 20

/-- Left zero padding of a digit string to `k` digits. -/
def padZeros (k m : ℕ) : String :=
  let t := toString m
  String.mk (List.replicate (k - t.length) '0') ++ t

/-- Models ECMAScript `ToString` applied to a number, for numbers with a
finite decimal expansion of at most 20 digits (every value occurring in this
development): the shortest exact decimal form, with no trailing zeros and no
forced fraction part. -/
def jsNumToString (q : ℚ) : String :=
  let s := if q.num < 0 then "-" else ""
  let k := fracDigits q
  let n : ℕ := q.num.natAbs * (10 ^ k / q.den)
  if k = 0 then s ++ toString n
  else s ++ toString (n / 10 ^ k) ++ "." ++ padZeros k (n % 10 ^ k)

/-- Models the message choice of `main` in the flat-file revision:
`productionData && productionData.yesterdayTotalKwh != null` selects the
success template (which interpolates the raw number), otherwise the failure
text. -/
def formatMessage01 : Option ProdJson → String
  | none => failureMsg
  | some pd =>
    match pd.yesterdayTotalKwh with
    | none => failureMsg
    | some q => "Solar production yesterday was " ++ jsNumToString q ++ " kWh"

/-! ### Helper lemmas -/

theorem valueOrZero_eq_getD (o : Option ℚ) : valueOrZero o = o.getD 0 := by
  cases o with
  | none => rfl
  | some v =>
    by_cases h : v = 0 <;> simp [valueOrZero, h]

theorem valueOrZero_some (v : ℚ) : valueOrZero (some v) = v := by
  rw [valueOrZero_eq_getD]; rfl

theorem jsOr0_eq (q : ℚ) : jsOr0 q = q := by
  by_cases h : q = 0 <;> simp [jsOr0, h]

theorem foldl_add_valueOrZero (l : List Reading) (a : ℚ) :
    l.foldl (fun acc r => acc + valueOrZero r.solar) a
      = a + (l.map fun r => valueOrZero r.solar).sum := by
  induction l generalizing a with
  | nil => simp
  | cons r t ih => simp [List.foldl_cons, ih, add_assoc]

theorem totalSolar_eq_sum (rs : List Reading) (now : Int) :
    totalSolar rs now = ((recentRecords rs now).map fun r => valueOrZero r.solar).sum := by
  rw [totalSolar, foldl_add_valueOrZero, zero_add]

theorem recentRecords_cons (r : Reading) (rs : List Reading) (now : Int) :
    recentRecords (r :: rs) now =
      if now - 24 * 60 * 60 * 1000 ≤ r.timestamp ∧ r.timestamp ≤ now then
        r :: recentRecords rs now
      else recentRecords rs now := by
  by_cases h1 : now - 24 * 60 * 60 * 1000 ≤ r.timestamp <;>
    by_cases h2 : r.timestamp ≤ now <;>
      simp [recentRecords, List.filter_cons, h1, h2]

theorem mem_insertDesc (x y : Int) (l : List Int) :
    y ∈ insertDesc x l ↔ y = x ∨ y ∈ l := by
  induction l with
  | nil => simp [insertDesc]
  | cons z t ih =>
    by_cases h : z ≤ x
    · simp [insertDesc, h]
    · simp [insertDesc, h, ih]
      tauto

theorem pairwise_insertDesc (x : Int) (l : List Int)
    (hl : l.Pairwise fun a b => b ≤ a) :
    (insertDesc x l).Pairwise fun a b => b ≤ a := by
  induction l with
  | nil => simp [insertDesc]
  | cons z t ih =>
    rw [List.pairwise_cons] at hl
    by_cases h : z ≤ x
    · rw [insertDesc, if_pos h, List.pairwise_cons]
      refine ⟨?_, List.pairwise_cons.2 hl⟩
      intro b hb
      rcases List.mem_cons.1 hb with hb | hb
      · exact hb ▸ h
      · exact le_trans (hl.1 b hb) h
    · rw [insertDesc, if_neg h, List.pairwise_cons]
      refine ⟨?_, ih hl.2⟩
      intro b hb
      rcases (mem_insertDesc x b t).1 hb with hb | hb
      · exact hb ▸ le_of_not_le h
      · exact hl.1 b hb

theorem mem_sortDesc (l : List Int) (y : Int) : y ∈ sortDesc l ↔ y ∈ l := by
  induction l with
  | nil => simp [sortDesc]
  | cons z t ih =>
    simp only [sortDesc, List.foldr_cons] at *
    rw [mem_insertDesc, ih, List.mem_cons]

theorem pairwise_sortDesc (l : List Int) :
    (sortDesc l).Pairwise fun a b => b ≤ a := by
  induction l with
  | nil => simp [sortDesc]
  | cons z t ih =>
    simpa only [sortDesc, List.foldr_cons] using pairwise_insertDesc z _ ih

theorem find?_desc_max (p : Int → Bool) (l : List Int)
    (hl : l.Pairwise fun a b => b ≤ a) (d : Int) (hd : l.find? p = some d) :
    ∀ e ∈ l, p e = true → e ≤ d := by
  induction l with
  | nil => simp at hd
  | cons z t ih =>
    rw [List.pairwise_cons] at hl
    intro e he hpe
    by_cases hz : p z = true
    · rw [List.find?_cons_of_pos _ hz] at hd
      cases hd
      rcases List.mem_cons.1 he with he | he
      · exact he.le
      · exact hl.1 e he
    · rw [List.find?_cons_of_neg _ (by simpa using hz)] at hd
      rcases List.mem_cons.1 he with he | he
      · exact absurd (he ▸ hpe) hz
      · exact ih hl.2 hd e he hpe

theorem mem_sortedDates (rs : List Reading) (d : Int) :
    d ∈ sortedDates rs ↔ ∃ r ∈ rs, mtDay r.timestamp = d := by
  rw [sortedDates, mem_sortDesc, List.mem_dedup, List.mem_map]

theorem mostRecentDate_pos (rs : List Reading) (d : Int)
    (h : mostRecentDate rs = some d) :
    0 < dayTotal rs d ∧ d ∈ sortedDates rs := by
  have h1 := List.find?_some h
  have h2 := List.mem_of_find?_eq_some h
  rw [decide_eq_true_eq, jsOr0_eq] at h1
  exact ⟨h1, h2⟩

theorem mostRecentDate_max (rs : List Reading) (d : Int)
    (h : mostRecentDate rs = some d) :
    ∀ e ∈ sortedDates rs, 0 < dayTotal rs e → e ≤ d := by
  intro e he hpos
  refine find?_desc_max _ _ (pairwise_sortDesc _) d h e he ?_
  rw [decide_eq_true_eq, jsOr0_eq]
  exact hpos

theorem mostRecentDate_none (rs : List Reading)
    (h : mostRecentDate rs = none) :
    ∀ e ∈ sortedDates rs, ¬ 0 < dayTotal rs e := by
  intro e he
  have := List.find?_eq_none.1 h e he
  rw [decide_eq_true_eq, jsOr0_eq] at this
  exact this

theorem string_head_append_ne (p t q : String) (c c' : Char)
    (lp : List Char) (lq : List Char)
    (hp : p.data = c :: lp) (hq : q.data = c' :: lq) (hne : c ≠ c') :
    p ++ t ≠ q := by
  intro h
  have hd : (p ++ t).data = q.data := congrArg String.data h
  rw [String.data_append, hp, hq, List.cons_append, List.cons.injEq] at hd
  exact hne hd.1

theorem msg24_ne_failure (t : String) :
    "Solar production (last 24h): " ++ t ≠ failureMsg :=
  string_head_append_ne _ t _ 'S' 'F' _ _ rfl rfl (by decide)

theorem msgMT_ne_failure (t : String) :
    "Solar production (" ++ t ≠ failureMsg :=
  string_head_append_ne _ t _ 'S' 'F' _ _ rfl rfl (by decide)

/-! ### Claim theorems -/

/-- C1: In TrailingHours(24) mode the aggregation returns a total equal to
the sum of the values (with `null` read as `0`) of exactly those readings
whose timestamp lies in the closed interval `[now - 24h, now]`, and a count
equal to the number of such readings; in particular, readings at `now - 25h`
(value 5) and `now - 1h` (value 3) give total `3` and count `1`. -/
theorem trailingHours24_sums_inclusive_window (rs : List Reading) (now : Int) :
    (getProductionData24 rs now).yesterdayTotalKwh
      = ((rs.filter fun r =>
            decide (now - 24 * 60 * 60 * 1000 ≤ r.timestamp) &&
              decide (r.timestamp ≤ now)).map fun r => r.solar.getD 0).sum
    ∧ (getProductionData24 rs now).recordsCount
      = (rs.filter fun r =>
            decide (now - 24 * 60 * 60 * 1000 ≤ r.timestamp) &&
              decide (r.timestamp ≤ now)).length
    ∧ getProductionData24
        [⟨now - 25 * 60 * 60 * 1000, some 5⟩, ⟨now - 60 * 60 * 1000, some 3⟩] now
      = ⟨3, 1⟩ := by
  refine ⟨?_, rfl, ?_⟩
  · simp only [getProductionData24, totalSolar_eq_sum, valueOrZero_eq_getD]
    rfl
  · have h1 : ¬ (now - 24 * 60 * 60 * 1000 ≤ now - 25 * 60 * 60 * 1000) := by omega
    have h2 : now - 24 * 60 * 60 * 1000 ≤ now - 60 * 60 * 1000 := by omega
    have h3 : now - 60 * 60 * 1000 ≤ now := by omega
    have hr : recentRecords
        [⟨now - 25 * 60 * 60 * 1000, some 5⟩, ⟨now - 60 * 60 * 1000, some 3⟩] now
        = [⟨now - 60 * 60 * 1000, some 3⟩] := by
      rw [recentRecords_cons, if_neg (fun hc => h1 hc.1),
        recentRecords_cons, if_pos ⟨h2, h3⟩]
      rfl
    rw [getProductionData24, totalSolar_eq_sum, hr]
    simp [valueOrZero_some]

/-- C4: CalendarDayShifted computes a reading's local calendar date by
adding the (negative) timezone offset to the UTC instant and taking the date
part, every reading's local date appears among the grouped dates, and a
reading at UTC 2024-01-02T02:00:00Z with offset -7 hours maps to the local
date 2024-01-01. -/
theorem shifted_local_date_of_reading :
    (∀ ts : Int,
      mtDay ts = (ts + (-7) * (60 * 60 * 1000)).fdiv (24 * 60 * 60 * 1000))
    ∧ (∀ (rs : List Reading) (r : Reading),
        mtDay r.timestamp ∈ sortedDates (r :: rs))
    ∧ mtDay (utcMillis 2024 1 2 2 0 0) = daysFromCivil 2024 1 1 := by
  refine ⟨fun ts => ?_, fun rs r => ?_, by decide⟩
  · rw [mtDay, show ts + (-7) * (60 * 60 * 1000) = ts - 7 * (60 * 60 * 1000) from by ring]
  · exact (mem_sortedDates _ _).2 ⟨r, List.mem_cons_self r rs, rfl⟩

/-- C7: The formatter maps a `null` result and a result with no readings in
the window both to the exact failure string, and the caller's `try`/`catch`
maps any upstream exception to the same string. -/
theorem failure_string_on_null_or_empty :
    formatMessage24 none = failureMsg
    ∧ (∀ pd : ProductionData24, pd.recordsCount = 0 →
        formatMessage24 (some pd) = failureMsg)
    ∧ (∀ e : Unit, mainMessage24 (Except.error e) = failureMsg) := by
  refine ⟨rfl, fun pd h => ?_, fun e => rfl⟩
  simp [formatMessage24, h]

/-- Witness for C7 at the empty result `⟨0, 0⟩`. -/
theorem failure_string_on_null_or_empty_witness :
    formatMessage24 (some ⟨0, 0⟩) = failureMsg :=
  failure_string_on_null_or_empty.2.1 ⟨0, 0⟩ rfl

/-- C9 (amended): A missing or corrupt data source makes the data retrieval
return `null` (modelled `none`) rather than raising — the missing-store
guard of `solar-monitor.js` and the catch-all of `readJsonIfExists` — and
the formatter maps that `null` to the failure message. -/
theorem missing_or_corrupt_source_yields_none :
    (∀ now : Int, getProductionDataMTStore none now = none
      ∧ formatMessageMT (getProductionDataMTStore none now) = failureMsg)
    ∧ (∀ e : Unit, readJsonIfExists (Except.error e) = none
      ∧ formatMessage01 (readJsonIfExists (Except.error e)) = failureMsg) :=
  ⟨fun _ => ⟨rfl, rfl⟩, fun _ => ⟨rfl, rfl⟩⟩

/-- C9 counterexample: with a missing store the aggregation returns `none` —
no `AggregationResult` at all (the scripts return `null`), rather than a
result carrying `isEmpty = true`; indeed the code's result objects have no
`isEmpty` field. -/
theorem missing_source_returns_no_result_cex :
    getProductionDataMTStore none 0 = none
    ∧ readJsonIfExists (Except.error ()) = none :=
  ⟨rfl, rfl⟩

/-- C10: In the timezone-shifted variant a success message entails a strictly
positive reported total (the fallback scan only accepts dates with positive
total and the success branch tests the total's truthiness), and a store
whose readings all carry `null` or `0` values yields the failure message. -/
theorem success_implies_positive_total (rs : List Reading) (now : Int) :
    (formatMessageMT (some (getProductionDataMT rs now)) ≠ failureMsg →
      ∃ q, (getProductionDataMT rs now).mostRecentDayTotal = some q ∧ 0 < q)
    ∧ ((∀ r ∈ rs, r.solar = none ∨ r.solar = some 0) →
      formatMessageMT (some (getProductionDataMT rs now)) = failureMsg) := by
  constructor
  · intro h
    cases hm : mostRecentDate rs with
    | none =>
      exfalso
      apply h
      have hnone : getProductionDataMT rs now
          = ⟨(recentRecords rs now).length, none, none⟩ := by
        rw [getProductionDataMT, hm]
        rfl
      rw [hnone]
      rfl
    | some d =>
      refine ⟨dayTotal rs d, ?_, (mostRecentDate_pos rs d hm).1⟩
      rw [getProductionDataMT, hm]
      rfl
  · intro hz
    have hall : ∀ d, dayTotal rs d = 0 := by
      intro d
      rw [dayTotal]
      apply List.sum_eq_zero
      intro x hx
      rw [List.mem_map] at hx
      obtain ⟨r, hr, hxe⟩ := hx
      have hr2 : r ∈ rs := List.mem_of_mem_filter hr
      rcases hz r hr2 with h | h <;> simp [← hxe, h, valueOrZero]
    have hm : mostRecentDate rs = none := by
      rw [mostRecentDate]
      apply List.find?_eq_none.2
      intro d hd
      simp [hall d, jsOr0_eq]
    have hnone : getProductionDataMT rs now
        = ⟨(recentRecords rs now).length, none, none⟩ := by
      rw [getProductionDataMT, hm]
      rfl
    rw [hnone]
    rfl

/-- Witness for C10: a store with one positive reading yields a positive
reported total; a store with only `0`-valued and `null`-valued readings
yields the failure message. -/
theorem success_implies_positive_total_witness :
    (∃ q, (getProductionDataMT [⟨utcMillis 2024 1 1 12 0 0, some 5⟩] 0).mostRecentDayTotal
        = some q ∧ 0 < q)
    ∧ formatMessageMT (some (getProductionDataMT
        [⟨utcMillis 2024 1 1 6 0 0, some 0⟩, ⟨utcMillis 2024 1 1 12 0 0, none⟩] 0))
      = failureMsg := by
  constructor
  · apply (success_implies_positive_total _ 0).1
    have hs : sortedDates [⟨utcMillis 2024 1 1 12 0 0, some 5⟩] = [19723] := by decide
    have hf : ([⟨utcMillis 2024 1 1 12 0 0, some 5⟩] : List Reading).filter
        (fun r => decide (mtDay r.timestamp = 19723))
        = [⟨utcMillis 2024 1 1 12 0 0, some 5⟩] := by decide
    have ht : dayTotal [⟨utcMillis 2024 1 1 12 0 0, some 5⟩] 19723 = 5 := by
      rw [dayTotal, hf]
      simp [valueOrZero_some]
    have hm : mostRecentDate [⟨utcMillis 2024 1 1 12 0 0, some 5⟩] = some 19723 := by
      rw [mostRecentDate, hs]
      exact List.find?_cons_of_pos _
        (by simp only [ht, jsOr0_eq, decide_eq_true_eq]; norm_num)
    have hrc : recentRecords [⟨utcMillis 2024 1 1 12 0 0, some 5⟩] 0 = [] := by decide
    have hpd : getProductionDataMT [⟨utcMillis 2024 1 1 12 0 0, some 5⟩] 0
        = ⟨0, some 5, some 19723⟩ := by
      rw [getProductionDataMT, hm, hrc]
      simp [ht]
    rw [hpd]
    have hb : jsTruthy (some (5 : ℚ)) = true := by simp [jsTruthy]
    simp only [formatMessageMT, hb, if_true]
    exact msgMT_ne_failure _
  · exact (success_implies_positive_total _ 0).2 (by decide)

/-- C2 (amended): The shifted-calendar selection ignores the requested date
and reading counts: it returns the most recent grouped date whose daily
total is strictly positive (so a date that has readings but zero total is
skipped), and returns nothing when no grouped date has positive total. -/
theorem calendarShifted_selects_latest_positive_total (rs : List Reading) :
    (∀ d : Int, mostRecentDate rs = some d →
      0 < dayTotal rs d ∧ ∀ e ∈ sortedDates rs, 0 < dayTotal rs e → e ≤ d)
    ∧ (mostRecentDate rs = none → ∀ e ∈ sortedDates rs, ¬ 0 < dayTotal rs e) :=
  ⟨fun d h => ⟨(mostRecentDate_pos rs d h).1, mostRecentDate_max rs d h⟩,
   mostRecentDate_none rs⟩

/-- Witness for C2 (amended) on a one-reading store. -/
theorem calendarShifted_selects_latest_positive_total_witness :
    0 < dayTotal [⟨utcMillis 2024 1 1 12 0 0, some 5⟩] 19723
    ∧ ∀ e ∈ sortedDates [⟨utcMillis 2024 1 1 12 0 0, some 5⟩],
        0 < dayTotal [⟨utcMillis 2024 1 1 12 0 0, some 5⟩] e → e ≤ 19723 := by
  apply (calendarShifted_selects_latest_positive_total _).1 19723
  have hs : sortedDates [⟨utcMillis 2024 1 1 12 0 0, some 5⟩] = [19723] := by decide
  have hf : ([⟨utcMillis 2024 1 1 12 0 0, some 5⟩] : List Reading).filter
      (fun r => decide (mtDay r.timestamp = 19723))
      = [⟨utcMillis 2024 1 1 12 0 0, some 5⟩] := by decide
  have ht : dayTotal [⟨utcMillis 2024 1 1 12 0 0, some 5⟩] 19723 = 5 := by
    rw [dayTotal, hf]
    simp [valueOrZero_some]
  rw [mostRecentDate, hs]
  exact List.find?_cons_of_pos _
    (by simp only [ht, jsOr0_eq, decide_eq_true_eq]; norm_num)

/-- C2 counterexample: with shifted "today" = 19723 (2024-01-01 Mountain
Time) holding one reading of value `0` and the prior day holding value `5`,
the requested date 19723 has a reading yet is skipped — the scan falls back
to 19722 because it tests the daily total, not the reading count. -/
theorem calendarShifted_skips_zero_total_day_cex :
    mtDay (utcMillis 2024 1 1 23 0 0) = 19723
    ∧ dayCount [⟨utcMillis 2024 1 1 19 0 0, some 0⟩,
        ⟨utcMillis 2023 12 31 19 0 0, some 5⟩] 19723 = 1
    ∧ mostRecentDate [⟨utcMillis 2024 1 1 19 0 0, some 0⟩,
        ⟨utcMillis 2023 12 31 19 0 0, some 5⟩] = some 19722
    ∧ ¬ ((19722 : Int) = 19723) := by
  refine ⟨by decide, by decide, ?_, by decide⟩
  have hs : sortedDates [⟨utcMillis 2024 1 1 19 0 0, some 0⟩,
      ⟨utcMillis 2023 12 31 19 0 0, some 5⟩] = [19723, 19722] := by decide
  have hf1 : ([⟨utcMillis 2024 1 1 19 0 0, some 0⟩,
      ⟨utcMillis 2023 12 31 19 0 0, some 5⟩] : List Reading).filter
      (fun r => decide (mtDay r.timestamp = 19723))
      = [⟨utcMillis 2024 1 1 19 0 0, some 0⟩] := by decide
  have hf2 : ([⟨utcMillis 2024 1 1 19 0 0, some 0⟩,
      ⟨utcMillis 2023 12 31 19 0 0, some 5⟩] : List Reading).filter
      (fun r => decide (mtDay r.timestamp = 19722))
      = [⟨utcMillis 2023 12 31 19 0 0, some 5⟩] := by decide
  have ht1 : dayTotal [⟨utcMillis 2024 1 1 19 0 0, some 0⟩,
      ⟨utcMillis 2023 12 31 19 0 0, some 5⟩] 19723 = 0 := by
    rw [dayTotal, hf1]
    simp [valueOrZero_some]
  have ht2 : dayTotal [⟨utcMillis 2024 1 1 19 0 0, some 0⟩,
      ⟨utcMillis 2023 12 31 19 0 0, some 5⟩] 19722 = 5 := by
    rw [dayTotal, hf2]
    simp [valueOrZero_some]
  rw [mostRecentDate, hs,
    List.find?_cons_of_neg _ (by simp only [ht1, jsOr0_eq, decide_eq_true_eq]; norm_num)]
  exact List.find?_cons_of_pos _
    (by simp only [ht2, jsOr0_eq, decide_eq_true_eq]; norm_num)

/-- C3 (amended): When no reading is dated after the requested day, the
fallback selection is on or before the requested day and at minimum distance
from it among all positive-total dates (the scan never skips a closer
positive-total date); without that restriction the scan ranges over all
grouped dates, including future ones. -/
theorem fallback_scan_backward_when_no_future_readings (rs : List Reading)
    (reqDay d : Int) (hall : ∀ r ∈ rs, mtDay r.timestamp ≤ reqDay)
    (hsel : mostRecentDate rs = some d) :
    d ≤ reqDay
    ∧ ∀ e ∈ sortedDates rs, 0 < dayTotal rs e → reqDay - d ≤ reqDay - e := by
  have hmem := (mostRecentDate_pos rs d hsel).2
  obtain ⟨r, hr, hrd⟩ := (mem_sortedDates rs d).1 hmem
  refine ⟨hrd ▸ hall r hr, fun e he hpos => ?_⟩
  have := mostRecentDate_max rs d hsel e he hpos
  omega

/-- Witness for C3 (amended): all readings dated on or before day 19725. -/
theorem fallback_scan_backward_when_no_future_readings_witness :
    (19723 : Int) ≤ 19725
    ∧ ∀ e ∈ sortedDates [⟨utcMillis 2024 1 1 12 0 0, some 5⟩,
        ⟨utcMillis 2023 12 30 19 0 0, some 2⟩],
        0 < dayTotal [⟨utcMillis 2024 1 1 12 0 0, some 5⟩,
          ⟨utcMillis 2023 12 30 19 0 0, some 2⟩] e →
        (19725 : Int) - 19723 ≤ 19725 - e := by
  refine fallback_scan_backward_when_no_future_readings _ 19725 19723 (by decide) ?_
  have hs : sortedDates [⟨utcMillis 2024 1 1 12 0 0, some 5⟩,
      ⟨utcMillis 2023 12 30 19 0 0, some 2⟩] = [19723, 19721] := by decide
  have hf : ([⟨utcMillis 2024 1 1 12 0 0, some 5⟩,
      ⟨utcMillis 2023 12 30 19 0 0, some 2⟩] : List Reading).filter
      (fun r => decide (mtDay r.timestamp = 19723))
      = [⟨utcMillis 2024 1 1 12 0 0, some 5⟩] := by decide
  have ht : dayTotal [⟨utcMillis 2024 1 1 12 0 0, some 5⟩,
      ⟨utcMillis 2023 12 30 19 0 0, some 2⟩] 19723 = 5 := by
    rw [dayTotal, hf]
    simp [valueOrZero_some]
  rw [mostRecentDate, hs]
  exact List.find?_cons_of_pos _
    (by simp only [ht, jsOr0_eq, decide_eq_true_eq]; norm_num)

/-- C3 counterexample: with shifted "today" = 19723, a store holding a
positive reading dated 19724 (a future date relative to the requested day)
makes the scan select 19724 — a date after the requested one, contradicting
"never selecting a date after the requested one". -/
theorem fallback_can_select_future_date_cex :
    mtDay (utcMillis 2024 1 1 23 0 0) = 19723
    ∧ mostRecentDate [⟨utcMillis 2024 1 3 2 0 0, some 1⟩,
        ⟨utcMillis 2023 12 31 19 0 0, some 5⟩] = some 19724
    ∧ ¬ ((19724 : Int) ≤ 19723) := by
  refine ⟨by decide, ?_, by decide⟩
  have hs : sortedDates [⟨utcMillis 2024 1 3 2 0 0, some 1⟩,
      ⟨utcMillis 2023 12 31 19 0 0, some 5⟩] = [19724, 19722] := by decide
  have hf : ([⟨utcMillis 2024 1 3 2 0 0, some 1⟩,
      ⟨utcMillis 2023 12 31 19 0 0, some 5⟩] : List Reading).filter
      (fun r => decide (mtDay r.timestamp = 19724))
      = [⟨utcMillis 2024 1 3 2 0 0, some 1⟩] := by decide
  have ht : dayTotal [⟨utcMillis 2024 1 3 2 0 0, some 1⟩,
      ⟨utcMillis 2023 12 31 19 0 0, some 5⟩] 19724 = 1 := by
    rw [dayTotal, hf]
    simp [valueOrZero_some]
  rw [mostRecentDate, hs]
  exact List.find?_cons_of_pos _
    (by simp only [ht, jsOr0_eq, decide_eq_true_eq]; norm_num)

/-- C5 (amended): In the trailing-24-hour variant the invariants hold —
total = windowed sum, count = windowed length, and the failure message is
produced exactly when the window is empty — and an empty store yields the
empty result (and the failure message in the shifted variant too).  In the
shifted variant the returned count refers to the trailing window while the
total refers to the selected day (see the counterexample). -/
theorem aggregation_result_invariants_trailing (rs : List Reading) (now : Int) :
    (getProductionData24 rs now).yesterdayTotalKwh
      = ((recentRecords rs now).map fun r => valueOrZero r.solar).sum
    ∧ (getProductionData24 rs now).recordsCount = (recentRecords rs now).length
    ∧ (formatMessage24 (some (getProductionData24 rs now)) = failureMsg
        ↔ (getProductionData24 rs now).recordsCount = 0)
    ∧ getProductionData24 [] now = ⟨0, 0⟩
    ∧ formatMessageMT (some (getProductionDataMT [] now)) = failureMsg := by
  refine ⟨totalSolar_eq_sum rs now, rfl, ⟨?_, ?_⟩, rfl, rfl⟩
  · intro h
    by_contra hc
    have hpos : 0 < (getProductionData24 rs now).recordsCount := Nat.pos_of_ne_zero hc
    simp only [formatMessage24] at h
    rw [if_pos hpos] at h
    exact msg24_ne_failure _ h
  · intro h
    simp [formatMessage24, h]

/-- Witness for C5 (amended) at the empty store. -/
theorem aggregation_result_invariants_trailing_witness :
    formatMessage24 (some (getProductionData24 [] 0)) = failureMsg
      ↔ (getProductionData24 [] 0).recordsCount = 0 :=
  (aggregation_result_invariants_trailing [] 0).2.2.1

/-- C5 counterexample: in the shifted variant a reading 30 hours old lies
outside the trailing window (`recordsCount = 0`) yet its day is selected
(`mostRecentDayTotal = some 5`, one reading on that day), and a success
message is produced — so `readingCount` does not count the reported window
and emptiness is not `readingCount == 0`. -/
theorem mt_count_window_mismatch_cex :
    (getProductionDataMT [⟨utcMillis 2024 1 1 6 0 0, some 5⟩]
        (utcMillis 2024 1 2 12 0 0)).recordsCount = 0
    ∧ dayCount [⟨utcMillis 2024 1 1 6 0 0, some 5⟩] 19722 = 1
    ∧ (getProductionDataMT [⟨utcMillis 2024 1 1 6 0 0, some 5⟩]
        (utcMillis 2024 1 2 12 0 0)).mostRecentDayTotal = some 5
    ∧ formatMessageMT (some (getProductionDataMT [⟨utcMillis 2024 1 1 6 0 0, some 5⟩]
        (utcMillis 2024 1 2 12 0 0))) ≠ failureMsg := by
  have hs : sortedDates [⟨utcMillis 2024 1 1 6 0 0, some 5⟩] = [19722] := by decide
  have hf : ([⟨utcMillis 2024 1 1 6 0 0, some 5⟩] : List Reading).filter
      (fun r => decide (mtDay r.timestamp = 19722))
      = [⟨utcMillis 2024 1 1 6 0 0, some 5⟩] := by decide
  have ht : dayTotal [⟨utcMillis 2024 1 1 6 0 0, some 5⟩] 19722 = 5 := by
    rw [dayTotal, hf]
    simp [valueOrZero_some]
  have hm : mostRecentDate [⟨utcMillis 2024 1 1 6 0 0, some 5⟩] = some 19722 := by
    rw [mostRecentDate, hs]
    exact List.find?_cons_of_pos _
      (by simp only [ht, jsOr0_eq, decide_eq_true_eq]; norm_num)
  have hrc : recentRecords [⟨utcMillis 2024 1 1 6 0 0, some 5⟩]
      (utcMillis 2024 1 2 12 0 0) = [] := by decide
  have hpd : getProductionDataMT [⟨utcMillis 2024 1 1 6 0 0, some 5⟩]
      (utcMillis 2024 1 2 12 0 0) = ⟨0, some 5, some 19722⟩ := by
    rw [getProductionDataMT, hm, hrc]
    simp [ht]
  have hb : jsTruthy (some (5 : ℚ)) = true := by simp [jsTruthy]
  refine ⟨by rw [hpd], by decide, by rw [hpd], ?_⟩
  rw [hpd]
  simp only [formatMessageMT, hb, if_true]
  exact msgMT_ne_failure _

/-- C6 (amended): A `null`-valued (missing-value) reading inside the window
contributes `0` to the total and is still counted; a reading of value `v`
contributes exactly `v` (so negative values are summed as-is, not zeroed);
and duplicated readings are counted independently. -/
theorem null_zero_counted_duplicates_spec (rs : List Reading) (now t : Int) (v : ℚ)
    (h1 : now - 24 * 60 * 60 * 1000 ≤ t) (h2 : t ≤ now) :
    getProductionData24 (⟨t, none⟩ :: rs) now
      = ⟨(getProductionData24 rs now).yesterdayTotalKwh,
          (getProductionData24 rs now).recordsCount + 1⟩
    ∧ (getProductionData24 (⟨t, some v⟩ :: rs) now).yesterdayTotalKwh
      = v + (getProductionData24 rs now).yesterdayTotalKwh
    ∧ (getProductionData24 (⟨t, some v⟩ :: rs) now).recordsCount
      = (getProductionData24 rs now).recordsCount + 1
    ∧ (getProductionData24 (⟨t, some v⟩ :: ⟨t, some v⟩ :: rs) now).recordsCount
      = (getProductionData24 rs now).recordsCount + 2 := by
  have hcons : ∀ (o : Option ℚ) (l : List Reading),
      recentRecords (⟨t, o⟩ :: l) now = ⟨t, o⟩ :: recentRecords l now := by
    intro o l
    rw [recentRecords_cons, if_pos ⟨h1, h2⟩]
  refine ⟨?_, ?_, ?_, ?_⟩
  · simp [getProductionData24, totalSolar_eq_sum, hcons, valueOrZero]
  · simp [getProductionData24, totalSolar_eq_sum, hcons, valueOrZero_some]
  · simp [getProductionData24, hcons]
  · simp [getProductionData24, hcons]

/-- Witness for C6 (amended) at a concrete in-window instant. -/
theorem null_zero_counted_duplicates_spec_witness :
    getProductionData24 (⟨90000000, none⟩ :: []) 100000000
      = ⟨(getProductionData24 [] 100000000).yesterdayTotalKwh,
          (getProductionData24 [] 100000000).recordsCount + 1⟩
    ∧ (getProductionData24 (⟨90000000, some 7⟩ :: []) 100000000).yesterdayTotalKwh
      = 7 + (getProductionData24 [] 100000000).yesterdayTotalKwh
    ∧ (getProductionData24 (⟨90000000, some 7⟩ :: []) 100000000).recordsCount
      = (getProductionData24 [] 100000000).recordsCount + 1
    ∧ (getProductionData24 (⟨90000000, some 7⟩ :: ⟨90000000, some 7⟩ :: []) 100000000).recordsCount
      = (getProductionData24 [] 100000000).recordsCount + 2 :=
  null_zero_counted_duplicates_spec [] 100000000 90000000 7 (by decide) (by decide)

/-- C6 counterexample: an in-window reading of value `-5` yields a total of
`-5`, not `0` — negative values are not treated as `0` by the summation
(`row.solar || 0` keeps negative numbers). -/
theorem negative_value_not_zeroed_cex :
    (getProductionData24 [⟨90000000, some (-5)⟩] 100000000).yesterdayTotalKwh = -5
    ∧ ¬ ((getProductionData24 [⟨90000000, some (-5)⟩] 100000000).yesterdayTotalKwh = 0) := by
  have hr : recentRecords [⟨90000000, some (-5)⟩] 100000000
      = [⟨90000000, some (-5)⟩] := by decide
  have h : (getProductionData24 [⟨90000000, some (-5)⟩] 100000000).yesterdayTotalKwh = -5 := by
    simp only [getProductionData24]
    rw [totalSolar_eq_sum, hr]
    simp [valueOrZero_some]
  exact ⟨h, by rw [h]; norm_num⟩

/-- C8 (amended): The SQLite revisions format a non-empty result as
"Solar production (<label>): <total to 2 decimals> kWh", with
"(<count> readings)" appended in the trailing-hours revision, and `toFixed(2)`
rounds `3.456` to `"3.46"`; the flat-file revision instead interpolates the
raw value into "Solar production yesterday was <value> kWh" with no
rounding. -/
theorem success_message_formats :
    (∀ pd : ProductionData24, 0 < pd.recordsCount →
      formatMessage24 (some pd)
        = "Solar production (last 24h): " ++ toFixed2 pd.yesterdayTotalKwh ++ " kWh (" ++
            toString pd.recordsCount ++ " readings)")
    ∧ (∀ (pd : ProductionDataMT) (q : ℚ) (d : Int),
        pd.mostRecentDayTotal = some q → q ≠ 0 → pd.mostRecentDayDate = some d →
        formatMessageMT (some pd)
          = "Solar production (" ++ dayToString d ++ "): " ++ toFixed2 q ++ " kWh")
    ∧ toFixed2 (3456 / 1000) = "3.46"
    ∧ jsNumToString (3456 / 1000) = "3.456"
    ∧ formatMessage01 (some ⟨some (3456 / 1000)⟩)
        = "Solar production yesterday was 3.456 kWh" := by
  refine ⟨fun pd h => ?_, fun pd q d hq hq0 hd => ?_, ?_, ?_, ?_⟩
  · simp [formatMessage24, h]
  · have hb : jsTruthy (some q) = true := by simp [jsTruthy, hq0]
    simp [formatMessageMT, hq, hd, hb, optDayStr]
  · with_unfolding_all decide
  · with_unfolding_all decide
  · with_unfolding_all decide

/-- Witness for C8 (amended) at concrete results. -/
theorem success_message_formats_witness :
    formatMessage24 (some ⟨5, 2⟩)
      = "Solar production (last 24h): " ++ toFixed2 (5 : ℚ) ++ " kWh (" ++
          toString (2 : ℕ) ++ " readings)"
    ∧ formatMessageMT (some ⟨0, some 5, some 19722⟩)
      = "Solar production (" ++ dayToString 19722 ++ "): " ++ toFixed2 (5 : ℚ) ++ " kWh" :=
  ⟨success_message_formats.1 ⟨5, 2⟩ (by norm_num),
   success_message_formats.2.1 ⟨0, some 5, some 19722⟩ 5 19722 rfl (by norm_num) rfl⟩

/-- C8 counterexample: the flat-file revision's success message for total `5`
is "Solar production yesterday was 5 kWh", which is not of the claimed shape
"Solar production (<label>): <2-decimal total> kWh[...]" for any label (the
claimed shape always contains a parenthesis, the actual message none). -/
theorem json_variant_message_shape_cex :
    ¬ ∃ label t2 : String,
        formatMessage01 (some ⟨some 5⟩)
          = "Solar production (" ++ label ++ "): " ++ toFixed2 5 ++ " kWh" ++ t2 := by
  rintro ⟨label, t2, h⟩
  have hL : formatMessage01 (some ⟨some 5⟩)
      = "Solar production yesterday was 5 kWh" := by
    with_unfolding_all decide
  rw [hL] at h
  have hmem : '(' ∈ ("Solar production yesterday was 5 kWh" : String).data := by
    rw [congrArg String.data h]
    simp only [String.data_append]
    exact List.mem_append_left _ (List.mem_append_left _ (List.mem_append_left _
      (List.mem_append_left _ (List.mem_append_left _ (by decide)))))
  exact absurd hmem (by decide)
